import Mathlib

/-!
Shallow embedding of the schotter generative-art program (src/main.rs).

The program animates a grid of `ROWS × COLS` square outlines ("stones").
Each tick, `update` resamples or integrates every stone's motion segment,
then drives a frame recorder; `key_pressed` handles the user commands.
Floating-point state (`f32` in the source) is embedded as `ℚ`, so all
arithmetic facts below are exact-real-arithmetic statements; randomness is
embedded as an explicit oracle supplying the values each draw would return.
-/

/-- Number of grid rows (`ROWS` in the source). -/
def ROWS : ℕ := 22

/-- Number of grid columns (`COLS` in the source). -/
def COLS : ℕ := 12

/-- Cell size in pixels (`SIZE`). -/
def SIZE : ℕ := 30

/-- Window margin in pixels (`MARGIN`). -/
def MARGIN : ℕ := 35

/-- Window width (`WIDTH = COLS * SIZE + 2 * MARGIN`). -/
def WIDTH : ℕ := COLS * SIZE + 2 * MARGIN

/-- Window height (`HEIGHT = ROWS * SIZE + 2 * MARGIN`). -/
def HEIGHT : ℕ := ROWS * SIZE + 2 * MARGIN

/-- Stroke width (`LINE_WIDTH = 0.06`). -/
def LINE_WIDTH : ℚ := 6 / 100

/-- Run length in seconds (`SECONDS`). -/
def SECONDS : ℕ := 30

/-- Total run length in ticks (`FRAMES = 60 * SECONDS`). -/
def FRAMES : ℕ := 60 * SECONDS

/-- One animated grid-cell entity (the `Stone` struct). -/
structure Stone where
  x : ℚ
  y : ℚ
  x_offset : ℚ
  y_offset : ℚ
  rotation : ℚ
  x_velocity : ℚ
  y_velocity : ℚ
  rot_velocity : ℚ
  cycles : ℕ
deriving DecidableEq

/-- `Stone::new(x, y)`: all offsets, the rotation, all velocities and the
cycle counter start at zero. -/
def Stone.new (x y : ℚ) : Stone :=
  { x := x
    y := y
    x_offset := 0
    y_offset := 0
    rotation := 0
    x_velocity := 0
    y_velocity := 0
    rot_velocity := 0
    cycles := 0 }

/-- The values the random number generator returns for one stone on one
tick: `r` for `random_f32()`, `dx`/`dy` for the two `random_range(-0.5, 0.5)`
draws, `drot` for `random_range(-PI/4.0, PI/4.0)`, and `newCycles` for the
`random_range(50, 300)` draw (the idle and active branches each consume at
most one cycle-count draw, embedded by the same field). -/
structure Draws where
  r : ℚ
  dx : ℚ
  dy : ℚ
  drot : ℚ
  newCycles : ℕ
deriving DecidableEq

/-- The global program state (the `Model` struct), without the external
window handle and frames directory path. -/
structure Model where
  cur_frame : ℕ
  recording : Bool
  motion : ℚ
  disp_adj : ℚ
  rot_adj : ℚ
  gravel : List Stone

/-- The per-stone body of the loop in `update`: resample the segment when
`cycles == 0` (idle when `r > motion`, otherwise an active segment whose
velocities are `(target - current) / new_cycles`), else integrate one tick
and decrement the counter. -/
def advanceStone (motion disp_adj rot_adj : ℚ) (d : Draws) (s : Stone) : Stone :=
  if s.cycles = 0 then
    if d.r > motion then
      { s with
        x_velocity := 0
        y_velocity := 0
        rot_velocity := 0
        cycles := d.newCycles }
    else
      let factor := s.y / (ROWS : ℚ)
      let disp_factor := factor * disp_adj
      let rot_factor := factor * rot_adj
      let new_x := disp_factor * d.dx
      let new_y := disp_factor * d.dy
      let new_rot := rot_factor * d.drot
      let new_cycles := d.newCycles
      { s with
        x_velocity := (new_x - s.x_offset) / (new_cycles : ℚ)
        y_velocity := (new_y - s.y_offset) / (new_cycles : ℚ)
        rot_velocity := (new_rot - s.rotation) / (new_cycles : ℚ)
        cycles := new_cycles }
  else
    { s with
      x_offset := s.x_offset + s.x_velocity
      y_offset := s.y_offset + s.y_velocity
      rotation := s.rotation + s.rot_velocity
      cycles := s.cycles - 1 }

/-- One call of the `update` callback at tick `elapsed` (nannou's
`app.elapsed_frames()`), with `d i` the random draws consumed by the `i`-th
stone and `window` whether `app.window(..)` returns the main window.
Returns the new model and the frame index of the capture request, if any
(the `exit` at `elapsed >= FRAMES` is process termination, outside the
state). -/
def update (elapsed : ℕ) (d : ℕ → Draws) (window : Bool) (m : Model) :
    Model × Option ℕ :=
  let m1 := if FRAMES / 2 ≤ elapsed then { m with disp_adj := 0, rot_adj := 0 } else m
  let m2 := { m1 with
    gravel := m1.gravel.mapIdx fun i s =>
      advanceStone m1.motion m1.disp_adj m1.rot_adj (d i) s }
  if m2.recording ∧ elapsed % 2 = 0 then
    let cf := m2.cur_frame + 1
    if 9999 < cf then
      ({ m2 with cur_frame := cf, recording := false }, none)
    else
      ({ m2 with cur_frame := cf }, if window then some cf else none)
  else
    (m2, none)

/-- The keys the `key_pressed` handler distinguishes. -/
inductive Key where
  | R
  | S
  | Up
  | Down
  | Right
  | Left
  | Other
deriving DecidableEq

/-- The `key_pressed` callback's effect on the model: `R` toggles recording
(restart resets `cur_frame` to 0), `S` only requests a one-off capture,
the arrow keys step the adjustments by 0.1 with a `> 0` guard on decrease. -/
def key_pressed (k : Key) (m : Model) : Model :=
  match k with
  | Key.R =>
      if m.recording then
        { m with recording := false }
      else
        { m with recording := true, cur_frame := 0 }
  | Key.S => m
  | Key.Up => { m with disp_adj := m.disp_adj + 1 / 10 }
  | Key.Down =>
      if 0 < m.disp_adj then { m with disp_adj := m.disp_adj - 1 / 10 } else m
  | Key.Right => { m with rot_adj := m.rot_adj + 1 / 10 }
  | Key.Left =>
      if 0 < m.rot_adj then { m with rot_adj := m.rot_adj - 1 / 10 } else m
  | Key.Other => m

/-- `abs_normalize(orig, max) = orig.abs() / max`. -/
def abs_normalize (orig max : ℚ) : ℚ := |orig| / max

/-- A hue/saturation/lightness color value. -/
structure HSL where
  h : ℚ
  s : ℚ
  l : ℚ
deriving DecidableEq

/-- The hue `view` computes for one stone, with `pi` standing for the `PI`
constant: the five-term deviation sum divided by 5. -/
def stoneHue (pi : ℚ) (s : Stone) : ℚ :=
  (abs_normalize s.x (COLS : ℚ) + abs_normalize s.y (ROWS : ℚ) +
      abs_normalize s.rotation (pi / 4) + abs_normalize s.x_offset (5 / 10) +
      abs_normalize s.y_offset (5 / 10)) / 5

/-- The stroke color `view` builds: `hsl(hue, 1.0, 0.5)`. -/
def strokeColor (pi : ℚ) (s : Stone) : HSL :=
  { h := stoneHue pi s, s := 1, l := 5 / 10 }

/-- The initial stone grid built in `model`: one `Stone::new(x, y)` per cell,
`y` the outer loop over `0..ROWS`, `x` the inner loop over `0..COLS`. -/
def initGravel : List Stone :=
  ((List.range ROWS).map fun y =>
    (List.range COLS).map fun x => Stone.new (x : ℚ) (y : ℚ)).flatten

/-- The initial model built in `model`: adjustments at 1.0, recording on,
frame index 0. -/
def initModel : Model :=
  { cur_frame := 0
    recording := true
    motion := 1
    disp_adj := 1
    rot_adj := 1
    gravel := initGravel }

/-- The per-tick environment one `advanceStone` call sees: the global
adjustment values read that tick and the stone's random draws. -/
structure TickEnv where
  motion : ℚ
  disp_adj : ℚ
  rot_adj : ℚ
  d : Draws

/-- Advance one stone through `n` consecutive ticks, tick `i` using
environment `env i`. -/
def advanceSeq (env : ℕ → TickEnv) : ℕ → Stone → Stone
  | 0, s => s
  | n + 1, s => advanceStone (env n).motion (env n).disp_adj (env n).rot_adj
      (env n).d (advanceSeq env n s)

/-- One externally-triggered program step: either an `update` tick or a
key press. -/
inductive Op where
  | tick (elapsed : ℕ) (d : ℕ → Draws) (window : Bool)
  | key (k : Key)

/-- Apply one program step to the model. -/
def applyOp (op : Op) (m : Model) : Model :=
  match op with
  | Op.tick elapsed d window => (update elapsed d window m).1
  | Op.key k => key_pressed k m

/-- Apply a sequence of program steps in order. -/
def applyOps (ops : List Op) (m : Model) : Model :=
  ops.foldl (fun acc op => applyOp op acc) m

/-- Run `n` consecutive `update` ticks with no key presses, starting at
elapsed-frame count `e0`; `d i j` is the draw for stone `j` on the `i`-th
tick of the run. -/
def runFrom (d : ℕ → ℕ → Draws) (window : Bool) (e0 : ℕ) : ℕ → Model → Model
  | 0, m => m
  | n + 1, m => (update (e0 + n) (d n) window (runFrom d window e0 n m)).1

/-- The recorder block of `update`, projected to its own state: on a
recording tick with an even frame count the index steps by one and recording
survives exactly while the new index stays within the cap. -/
def recStep (e : ℕ) (p : ℕ × Bool) : ℕ × Bool :=
  if p.2 = true ∧ e % 2 = 0 then
    (p.1 + 1, decide (p.1 + 1 ≤ 9999))
  else p

set_option maxRecDepth 10000

/-! ### Helper lemmas -/

/-- While the cycle counter stays positive, `advanceSeq` only integrates:
`m` ticks add `m` times the velocity to each coordinate and subtract `m`
from the counter, whatever the per-tick environments are. -/
theorem advanceSeq_coast (env : ℕ → TickEnv) (m : ℕ) (s : Stone)
    (h : m ≤ s.cycles) :
    advanceSeq env m s =
      { s with
        x_offset := s.x_offset + (m : ℚ) * s.x_velocity
        y_offset := s.y_offset + (m : ℚ) * s.y_velocity
        rotation := s.rotation + (m : ℚ) * s.rot_velocity
        cycles := s.cycles - m } := by
  cases s with
  | mk x y xo yo rot xv yv rv c =>
    revert h
    induction m with
    | zero =>
        intro h
        simp [advanceSeq]
    | succ n ih =>
        intro h
        dsimp only at h
        have hn : n ≤ c := by omega
        have hpos : ¬ (c - n = 0) := by omega
        rw [advanceSeq, ih hn]
        simp only [advanceStone, hpos, if_false, Stone.mk.injEq, and_true, true_and]
        push_cast
        refine ⟨by ring, by ring, by ring, by omega⟩

/-- Splitting an `advanceSeq` run: the first `a` ticks, then the remaining
`b` with the environment stream shifted by `a`. -/
theorem advanceSeq_add (env : ℕ → TickEnv) (a b : ℕ) (s : Stone) :
    advanceSeq env (a + b) s =
      advanceSeq (fun i => env (a + i)) b (advanceSeq env a s) := by
  induction b with
  | zero => rfl
  | succ n ih => rw [show a + (n + 1) = (a + n) + 1 from rfl, advanceSeq, ih, advanceSeq]

/-! ### Claim theorems -/

/-- C9. Grid construction: at startup the field holds exactly
`ROWS * COLS = 264` stones, exactly one per integer pair `(x, y)` with
`0 ≤ x < COLS` and `0 ≤ y < ROWS`, and every stone starts with zero
offsets, rotation, velocities and cycle counter. -/
theorem grid_construction :
    initGravel.length = ROWS * COLS ∧
    ROWS * COLS = 264 ∧
    ((List.range COLS).all fun x => (List.range ROWS).all fun y =>
      (initGravel.countP fun s =>
        decide (s.x = (x : ℚ)) && decide (s.y = (y : ℚ))) = 1) = true ∧
    (initGravel.all fun s =>
      decide (s.x_offset = 0) && decide (s.y_offset = 0) &&
      decide (s.rotation = 0) && decide (s.x_velocity = 0) &&
      decide (s.y_velocity = 0) && decide (s.rot_velocity = 0) &&
      decide (s.cycles = 0)) = true := by
  refine ⟨by decide, by decide, by decide, by decide⟩

/-- C7. Hue formula: the stroke color of every stone is the
hue/saturation/lightness value whose hue is the plain five-term sum
`(|grid_x|/COLS + |grid_y|/ROWS + |rotation|/(pi/4) + |offset_x|/0.5 +
|offset_y|/0.5) / 5` with saturation 1 and lightness 0.5; nothing clamps or
wraps the sum, and it exceeds 1 for example at offsets `(2, 2)`. -/
theorem hue_formula (pi : ℚ) (s : Stone) :
    strokeColor pi s =
      { h := (|s.x| / (COLS : ℚ) + |s.y| / (ROWS : ℚ) + |s.rotation| / (pi / 4) +
          |s.x_offset| / (5 / 10) + |s.y_offset| / (5 / 10)) / 5
        s := 1
        l := 5 / 10 } ∧
    1 < stoneHue 4
      { x := 0, y := 0, x_offset := 2, y_offset := 2, rotation := 0,
        x_velocity := 0, y_velocity := 0, rot_velocity := 0, cycles := 0 } := by
  constructor
  · rfl
  · norm_num [stoneHue, abs_normalize, COLS, ROWS]

/-- C8. Cycle counter safety: the counter is non-negative before and after
every advance; the decrement happens only in the integration branch, which
runs only when the counter is positive, so it never underflows (the new
counter equals the old one minus one over ℤ); and a stone whose counter is
zero draws a fresh segment whose counter lies in `[50, 300)` without
integrating that tick. -/
theorem cycles_safe (motion disp rot : ℚ) (d : Draws) (s : Stone)
    (h50 : 50 ≤ d.newCycles) (h300 : d.newCycles < 300) :
    (0 : ℤ) ≤ (s.cycles : ℤ) ∧
    (0 : ℤ) ≤ ((advanceStone motion disp rot d s).cycles : ℤ) ∧
    (s.cycles ≠ 0 →
      ((advanceStone motion disp rot d s).cycles : ℤ) = (s.cycles : ℤ) - 1) ∧
    (s.cycles = 0 →
      50 ≤ (advanceStone motion disp rot d s).cycles ∧
      (advanceStone motion disp rot d s).cycles < 300 ∧
      (advanceStone motion disp rot d s).x_offset = s.x_offset ∧
      (advanceStone motion disp rot d s).y_offset = s.y_offset ∧
      (advanceStone motion disp rot d s).rotation = s.rotation) := by
  by_cases h0 : s.cycles = 0
  · by_cases hr : d.r > motion
    · simp [advanceStone, h0, hr]
      omega
    · simp [advanceStone, h0, hr]
      omega
  · simp [advanceStone, h0]
    omega

/-- Concrete instance of `cycles_safe`: a freshly built stone with the
draw `newCycles = 50`. -/
theorem cycles_safe_witness :
    (50 ≤ (50 : ℕ) ∧ (50 : ℕ) < 300) ∧
    ((0 : ℤ) ≤ (((Stone.new 0 0).cycles : ℕ) : ℤ) ∧
      (0 : ℤ) ≤ ((advanceStone 1 1 1
        { r := 0, dx := 0, dy := 0, drot := 0, newCycles := 50 }
        (Stone.new 0 0)).cycles : ℤ) ∧
      ((Stone.new 0 0).cycles ≠ 0 →
        ((advanceStone 1 1 1 { r := 0, dx := 0, dy := 0, drot := 0, newCycles := 50 }
          (Stone.new 0 0)).cycles : ℤ) = ((Stone.new 0 0).cycles : ℤ) - 1) ∧
      ((Stone.new 0 0).cycles = 0 →
        50 ≤ (advanceStone 1 1 1 { r := 0, dx := 0, dy := 0, drot := 0, newCycles := 50 }
          (Stone.new 0 0)).cycles ∧
        (advanceStone 1 1 1 { r := 0, dx := 0, dy := 0, drot := 0, newCycles := 50 }
          (Stone.new 0 0)).cycles < 300 ∧
        (advanceStone 1 1 1 { r := 0, dx := 0, dy := 0, drot := 0, newCycles := 50 }
          (Stone.new 0 0)).x_offset = (Stone.new 0 0).x_offset ∧
        (advanceStone 1 1 1 { r := 0, dx := 0, dy := 0, drot := 0, newCycles := 50 }
          (Stone.new 0 0)).y_offset = (Stone.new 0 0).y_offset ∧
        (advanceStone 1 1 1 { r := 0, dx := 0, dy := 0, drot := 0, newCycles := 50 }
          (Stone.new 0 0)).rotation = (Stone.new 0 0).rotation)) :=
  ⟨⟨by decide, by decide⟩,
    cycles_safe 1 1 1 { r := 0, dx := 0, dy := 0, drot := 0, newCycles := 50 }
      (Stone.new 0 0) (by decide) (by decide)⟩

/-- What one `update` call does to every non-gravel field, and to the gravel
as a function of the adjustment values in force that tick. -/
theorem update_proj (e : ℕ) (d : ℕ → Draws) (w : Bool) (m : Model) :
    (update e d w m).1.disp_adj = (if FRAMES / 2 ≤ e then 0 else m.disp_adj) ∧
    (update e d w m).1.rot_adj = (if FRAMES / 2 ≤ e then 0 else m.rot_adj) ∧
    (update e d w m).1.motion = m.motion ∧
    ((update e d w m).1.cur_frame, (update e d w m).1.recording) =
      recStep e (m.cur_frame, m.recording) ∧
    (update e d w m).1.gravel = (if FRAMES / 2 ≤ e then
        m.gravel.mapIdx fun i s => advanceStone m.motion 0 0 (d i) s
      else
        m.gravel.mapIdx fun i s => advanceStone m.motion m.disp_adj m.rot_adj (d i) s) ∧
    (update e d w m).2 = (if (m.recording && decide (e % 2 = 0) &&
        decide (m.cur_frame + 1 ≤ 9999) && w) = true
      then some (m.cur_frame + 1) else none) := by
  cases m with
  | mk cf rec mo da ra g =>
    cases rec <;> cases w <;>
      by_cases hmid : FRAMES / 2 ≤ e <;>
        by_cases heven : e % 2 = 0 <;>
          by_cases hcap : 9999 < cf + 1 <;>
            simp [update, recStep, hmid, heven, hcap, Nat.lt_iff_add_one_le,
              Nat.not_le.mp, decide_eq_true_eq] <;>
              first
                | omega
                | exact ⟨by omega, by rw [if_neg (by omega)]⟩

/-- Unfolding one step of `applyOps`. -/
theorem applyOps_cons (op : Op) (ops : List Op) (m : Model) :
    applyOps (op :: ops) m = applyOps ops (applyOp op m) := rfl

/-- Every program step keeps each adjustment a natural multiple of 1/10. -/
theorem applyOp_adj_tenth (op : Op) (m : Model)
    (ha : ∃ a : ℕ, m.disp_adj = (a : ℚ) / 10)
    (hb : ∃ b : ℕ, m.rot_adj = (b : ℚ) / 10) :
    (∃ a : ℕ, (applyOp op m).disp_adj = (a : ℚ) / 10) ∧
    (∃ b : ℕ, (applyOp op m).rot_adj = (b : ℚ) / 10) := by
  obtain ⟨a, ha⟩ := ha
  obtain ⟨b, hb⟩ := hb
  cases op with
  | tick e d w =>
      obtain ⟨h1, h2, -⟩ := update_proj e d w m
      rw [applyOp, h1, h2]
      by_cases hmid : FRAMES / 2 ≤ e
      · simp only [if_pos hmid]
        exact ⟨⟨0, by norm_num⟩, ⟨0, by norm_num⟩⟩
      · simp only [if_neg hmid]
        exact ⟨⟨a, ha⟩, ⟨b, hb⟩⟩
  | key k =>
      cases k with
      | R =>
          refine ⟨⟨a, ?_⟩, ⟨b, ?_⟩⟩ <;>
            · simp only [applyOp, key_pressed]
              split <;> assumption
      | S => exact ⟨⟨a, ha⟩, ⟨b, hb⟩⟩
      | Up =>
          refine ⟨⟨a + 1, ?_⟩, ⟨b, hb⟩⟩
          simp only [applyOp, key_pressed, ha]
          push_cast
          ring
      | Down =>
          simp only [applyOp, key_pressed]
          by_cases hpos : 0 < m.disp_adj
          · rw [if_pos hpos]
            have ha1 : 1 ≤ a := by
              rcases Nat.eq_zero_or_pos a with h | h
              · rw [h] at ha; rw [ha] at hpos; norm_num at hpos
              · exact h
            refine ⟨⟨a - 1, ?_⟩, ⟨b, hb⟩⟩
            simp only [ha]
            rw [Nat.cast_sub ha1]
            push_cast
            ring
          · rw [if_neg hpos]
            exact ⟨⟨a, ha⟩, ⟨b, hb⟩⟩
      | Right =>
          refine ⟨⟨a, ha⟩, ⟨b + 1, ?_⟩⟩
          simp only [applyOp, key_pressed, hb]
          push_cast
          ring
      | Left =>
          simp only [applyOp, key_pressed]
          by_cases hpos : 0 < m.rot_adj
          · rw [if_pos hpos]
            have hb1 : 1 ≤ b := by
              rcases Nat.eq_zero_or_pos b with h | h
              · rw [h] at hb; rw [hb] at hpos; norm_num at hpos
              · exact h
            refine ⟨⟨a, ha⟩, ⟨b - 1, ?_⟩⟩
            simp only [hb]
            rw [Nat.cast_sub hb1]
            push_cast
            ring
          · rw [if_neg hpos]
            exact ⟨⟨a, ha⟩, ⟨b, hb⟩⟩
      | Other => exact ⟨⟨a, ha⟩, ⟨b, hb⟩⟩

/-- Any sequence of program steps keeps each adjustment a natural multiple
of 1/10. -/
theorem applyOps_adj_tenth (ops : List Op) (m : Model)
    (ha : ∃ a : ℕ, m.disp_adj = (a : ℚ) / 10)
    (hb : ∃ b : ℕ, m.rot_adj = (b : ℚ) / 10) :
    (∃ a : ℕ, (applyOps ops m).disp_adj = (a : ℚ) / 10) ∧
    (∃ b : ℕ, (applyOps ops m).rot_adj = (b : ℚ) / 10) := by
  induction ops generalizing m with
  | nil => exact ⟨ha, hb⟩
  | cons op ops ih =>
      rw [applyOps_cons]
      obtain ⟨ha1, hb1⟩ := applyOp_adj_tenth op m ha hb
      exact ih (applyOp op m) ha1 hb1

/-- C4 (amended). Lower clamp on adjustments, for program states: every
state reachable by program steps from startup keeps both adjustments equal
to a natural multiple of 1/10, hence non-negative, and applying the
decrease-displacement or decrease-rotation command to such a state again
leaves the adjustment non-negative. -/
theorem adjustments_clamped (ops : List Op) :
    (∃ a : ℕ, (applyOps ops initModel).disp_adj = (a : ℚ) / 10) ∧
    (∃ b : ℕ, (applyOps ops initModel).rot_adj = (b : ℚ) / 10) ∧
    0 ≤ (applyOps ops initModel).disp_adj ∧
    0 ≤ (applyOps ops initModel).rot_adj ∧
    0 ≤ (key_pressed Key.Down (applyOps ops initModel)).disp_adj ∧
    0 ≤ (key_pressed Key.Left (applyOps ops initModel)).rot_adj := by
  have hinit : ∃ a : ℕ, initModel.disp_adj = (a : ℚ) / 10 := ⟨10, by norm_num [initModel]⟩
  have hinit2 : ∃ b : ℕ, initModel.rot_adj = (b : ℚ) / 10 := ⟨10, by norm_num [initModel]⟩
  obtain ⟨⟨a, ha⟩, ⟨b, hb⟩⟩ := applyOps_adj_tenth ops initModel hinit hinit2
  have hdown := applyOp_adj_tenth (Op.key Key.Down) (applyOps ops initModel) ⟨a, ha⟩ ⟨b, hb⟩
  have hleft := applyOp_adj_tenth (Op.key Key.Left) (applyOps ops initModel) ⟨a, ha⟩ ⟨b, hb⟩
  obtain ⟨⟨a1, ha1⟩, -⟩ := hdown
  obtain ⟨-, ⟨b1, hb1⟩⟩ := hleft
  refine ⟨⟨a, ha⟩, ⟨b, hb⟩, ?_, ?_, ?_, ?_⟩
  · rw [ha]; positivity
  · rw [hb]; positivity
  · rw [show key_pressed Key.Down (applyOps ops initModel) =
      applyOp (Op.key Key.Down) (applyOps ops initModel) from rfl, ha1]
    positivity
  · rw [show key_pressed Key.Left (applyOps ops initModel) =
      applyOp (Op.key Key.Left) (applyOps ops initModel) from rfl, hb1]
    positivity

/-- C4 counterexample: on a state whose displacement adjustment is 0.05,
the decrease-displacement command drives it negative, so "for every state
the decrease command leaves the adjustment non-negative" is false as
stated (the guard is `> 0`, not a floor at 0). -/
theorem adjustments_clamped_cex :
    (key_pressed Key.Down
      { cur_frame := 0, recording := false, motion := 1, disp_adj := 1 / 20,
        rot_adj := 1, gravel := [] }).disp_adj < 0 := by
  norm_num [key_pressed]

/-- C6 (amended). Automatic mutation of the adjustments is not limited to
the midpoint tick: the per-tick update writes both adjustments to 0 on
every tick `e` with `FRAMES / 2 ≤ e` (so a key-command change made after
the midpoint is overwritten again on the next tick), and leaves both
unchanged on every tick before the midpoint. -/
theorem midpoint_zeroing (e : ℕ) (d : ℕ → Draws) (w : Bool) (m : Model) :
    (update e d w m).1.disp_adj = (if FRAMES / 2 ≤ e then 0 else m.disp_adj) ∧
    (update e d w m).1.rot_adj = (if FRAMES / 2 ≤ e then 0 else m.rot_adj) := by
  obtain ⟨h1, h2, -⟩ := update_proj e d w m
  exact ⟨h1, h2⟩

/-- C6 counterexample: tick 901 is not the midpoint tick (the midpoint is
`FRAMES / 2 = 900`), yet the update at tick 901 changes `disp_adj` from
0.1 to 0. -/
theorem midpoint_zeroing_cex :
    (901 : ℕ) ≠ FRAMES / 2 ∧
    ¬ ((update 901 (fun _ => { r := 0, dx := 0, dy := 0, drot := 0, newCycles := 50 })
        true
        { cur_frame := 0, recording := false, motion := 1, disp_adj := 1 / 10,
                                              rot_adj := 1, gravel := [] }).1.disp_adj
      = ({ cur_frame := 0, recording := false, motion := 1, disp_adj := 1 / 10,
                                               rot_adj := 1, gravel := [] } : Model).disp_adj) := by
  constructor
  · decide
  · obtain ⟨h1, -⟩ := update_proj 901
      (fun _ => { r := 0, dx := 0, dy := 0, drot := 0, newCycles := 50 }) true
      { cur_frame := 0, recording := false, motion := 1, disp_adj := 1 / 10,
                                            rot_adj := 1, gravel := [] }
    rw [h1, if_pos (by decide)]
    norm_num

/-- A stone with all velocities zero never moves under environments whose
motion probability is 0 and whose `random_f32` draws are positive: every
resample takes the idle branch and every integration adds zero. -/
theorem advanceSeq_frozen (env : ℕ → TickEnv)
    (hm : ∀ i, (env i).motion = 0) (hr : ∀ i, 0 < (env i).d.r)
    (s : Stone) (hxv : s.x_velocity = 0) (hyv : s.y_velocity = 0)
    (hrv : s.rot_velocity = 0) (n : ℕ) :
    (advanceSeq env n s).x_offset = s.x_offset ∧
    (advanceSeq env n s).y_offset = s.y_offset ∧
    (advanceSeq env n s).rotation = s.rotation ∧
    (advanceSeq env n s).x_velocity = 0 ∧
    (advanceSeq env n s).y_velocity = 0 ∧
    (advanceSeq env n s).rot_velocity = 0 := by
  induction n with
  | zero => exact ⟨rfl, rfl, rfl, hxv, hyv, hrv⟩
  | succ n ih =>
      obtain ⟨h1, h2, h3, h4, h5, h6⟩ := ih
      have hgt : (env n).d.r > (env n).motion := by rw [hm n]; exact hr n
      rw [advanceSeq]
      by_cases h0 : (advanceSeq env n s).cycles = 0
      · simp only [advanceStone, h0, if_pos rfl, if_pos hgt, if_true, hgt]
        exact ⟨h1, h2, h3, trivial, trivial, trivial⟩
      · simp only [advanceStone, if_neg h0]
        exact ⟨by rw [h1, h4, add_zero], by rw [h2, h5, add_zero],
          by rw [h3, h6, add_zero], h4, h5, h6⟩

/-- C5 (amended). Idle under zero motion probability, for positive draws:
with `motion == 0`, every `random_f32` draw `r` with `r > 0` sends a
resampling stone into the idle branch, so a stone starting with zero
velocities keeps its offsets, rotation and zero velocities through any
number of ticks, and a resample on such a tick zeroes the velocities,
draws a fresh cycle count and does not integrate.  (At the measure-zero
draw `r == 0` the comparison `r > motion` fails and an active segment
starts instead, so the claim is false for every `r` in `[0,1)`.) -/
theorem idle_zero_motion (env : ℕ → TickEnv)
    (hm : ∀ i, (env i).motion = 0) (hr : ∀ i, 0 < (env i).d.r)
    (s : Stone) (hxv : s.x_velocity = 0) (hyv : s.y_velocity = 0)
    (hrv : s.rot_velocity = 0) (n : ℕ) :
    ((advanceSeq env n s).x_offset = s.x_offset ∧
     (advanceSeq env n s).y_offset = s.y_offset ∧
     (advanceSeq env n s).rotation = s.rotation ∧
     (advanceSeq env n s).x_velocity = 0 ∧
     (advanceSeq env n s).y_velocity = 0 ∧
     (advanceSeq env n s).rot_velocity = 0) ∧
    (s.cycles = 0 →
      advanceSeq env 1 s =
        { s with x_velocity := 0, y_velocity := 0, rot_velocity := 0,
                 cycles := (env 0).d.newCycles }) := by
  refine ⟨advanceSeq_frozen env hm hr s hxv hyv hrv n, fun h0 => ?_⟩
  have hgt : (env 0).d.r > (env 0).motion := by rw [hm 0]; exact hr 0
  show advanceStone (env 0).motion (env 0).disp_adj (env 0).rot_adj (env 0).d s = _
  rw [advanceStone, if_pos h0, if_pos hgt]

/-- C5 counterexample: with `motion == 0` and the draw `r = 0` (a value in
`[0,1)`), a resampling stone at row 11 with `disp_adj = 1` starts an active
segment with velocity 1/200, not a zero-velocity idle segment. -/
theorem idle_zero_motion_cex :
    (advanceStone 0 1 1 { r := 0, dx := 1 / 2, dy := 0, drot := 0, newCycles := 50 }
      { x := 0, y := 11, x_offset := 0, y_offset := 0, rotation := 0,
        x_velocity := 0, y_velocity := 0, rot_velocity := 0,
        cycles := 0 }).x_velocity = 1 / 200 ∧ ((1 : ℚ) / 200 ≠ 0) := by
  constructor
  · norm_num [advanceStone, ROWS]
  · norm_num

/-- The constant environment used by the `idle_zero_motion` instance:
motion probability 0 and a positive `random_f32` draw every tick. -/
def envC5 : ℕ → TickEnv := fun _ =>
  { motion := 0, disp_adj := 1, rot_adj := 1,
    d := { r := 1 / 2, dx := 1 / 2, dy := 0, drot := 0, newCycles := 60 } }

/-- The stone used by the `idle_zero_motion` instance. -/
def stoneC5 : Stone := Stone.new 3 7

/-- Concrete instance of `idle_zero_motion`: the constant environment
`envC5` (motion 0, draw 1/2), the stone `stoneC5` and five ticks. -/
theorem idle_zero_motion_witness :
    (0 : ℚ) < (envC5 0).d.r ∧
    (((advanceSeq envC5 5 stoneC5).x_offset = stoneC5.x_offset ∧
      (advanceSeq envC5 5 stoneC5).y_offset = stoneC5.y_offset ∧
      (advanceSeq envC5 5 stoneC5).rotation = stoneC5.rotation ∧
      (advanceSeq envC5 5 stoneC5).x_velocity = 0 ∧
      (advanceSeq envC5 5 stoneC5).y_velocity = 0 ∧
      (advanceSeq envC5 5 stoneC5).rot_velocity = 0) ∧
     (stoneC5.cycles = 0 →
       advanceSeq envC5 1 stoneC5 =
         { stoneC5 with x_velocity := 0, y_velocity := 0, rot_velocity := 0,
                        cycles := (envC5 0).d.newCycles })) :=
  ⟨by norm_num [envC5],
    idle_zero_motion envC5 (fun _ => rfl) (fun _ => by norm_num [envC5])
      stoneC5 rfl rfl rfl 5⟩

/-- When recording is off, a tick or a non-R key press leaves the frame
index untouched and recording off. -/
theorem applyOp_stopped (op : Op) (m : Model) (hrec : m.recording = false)
    (hnr : ∀ k, op = Op.key k → k ≠ Key.R) :
    (applyOp op m).cur_frame = m.cur_frame ∧ (applyOp op m).recording = false := by
  cases op with
  | tick e d w =>
      obtain ⟨-, -, -, h4, -, -⟩ := update_proj e d w m
      rw [hrec] at h4
      have hid : recStep e (m.cur_frame, false) = (m.cur_frame, false) := by
        simp [recStep]
      rw [hid] at h4
      exact ⟨congrArg Prod.fst h4, congrArg Prod.snd h4⟩
  | key k =>
      have hk : k ≠ Key.R := hnr k rfl
      cases k with
      | R => exact absurd rfl hk
      | S => exact ⟨rfl, hrec⟩
      | Up => exact ⟨rfl, hrec⟩
      | Down =>
          simp only [applyOp, key_pressed]
          split <;> exact ⟨rfl, hrec⟩
      | Right => exact ⟨rfl, hrec⟩
      | Left =>
          simp only [applyOp, key_pressed]
          split <;> exact ⟨rfl, hrec⟩
      | Other => exact ⟨rfl, hrec⟩

/-- When recording is off, any sequence of ticks and non-R key presses
leaves the frame index untouched and recording off. -/
theorem applyOps_stopped (ops : List Op) (m : Model) (hrec : m.recording = false)
    (hops : ∀ op ∈ ops, ∀ k, op = Op.key k → k ≠ Key.R) :
    (applyOps ops m).cur_frame = m.cur_frame ∧ (applyOps ops m).recording = false := by
  induction ops generalizing m with
  | nil => exact ⟨rfl, hrec⟩
  | cons op ops ih =>
      obtain ⟨h1, h2⟩ := applyOp_stopped op m hrec (hops op (List.mem_cons_self op ops))
      rw [applyOps_cons]
      obtain ⟨g1, g2⟩ := ih (applyOp op m) h2
        (fun o ho => hops o (List.mem_cons_of_mem op ho))
      exact ⟨g1.trans h1, g2⟩

/-- C10. Cap overshoot: on the tick where the frame index first increments
past 9999, recording switches off and no capture is requested, but the
index is left at 10000 (incremented before the cap check, never clamped
back); it keeps that value across any further ticks and non-R key presses,
and pressing R (a recording restart, since recording is now off) resets it
to 0 and turns recording back on. -/
theorem cap_overshoot (e : ℕ) (d : ℕ → Draws) (w : Bool) (m : Model)
    (hrec : m.recording = true) (hcf : m.cur_frame = 9999) (he : e % 2 = 0) :
    (update e d w m).1.cur_frame = 10000 ∧
    (update e d w m).1.recording = false ∧
    (update e d w m).2 = none ∧
    (∀ ops : List Op, (∀ op ∈ ops, ∀ k, op = Op.key k → k ≠ Key.R) →
      (applyOps ops (update e d w m).1).cur_frame = 10000 ∧
      (applyOps ops (update e d w m).1).recording = false) ∧
    (key_pressed Key.R (update e d w m).1).cur_frame = 0 ∧
    (key_pressed Key.R (update e d w m).1).recording = true := by
  obtain ⟨-, -, -, h4, -, h6⟩ := update_proj e d w m
  rw [hrec, hcf] at h4
  have hstep : recStep e (9999, true) = (10000, false) := by
    simp [recStep, he]
  rw [hstep] at h4
  have hc : (update e d w m).1.cur_frame = 10000 := congrArg Prod.fst h4
  have hb : (update e d w m).1.recording = false := congrArg Prod.snd h4
  refine ⟨hc, hb, ?_, ?_, ?_, ?_⟩
  · rw [h6, hrec, hcf]
    simp [he]
  · intro ops hops
    obtain ⟨g1, g2⟩ := applyOps_stopped ops (update e d w m).1 hb hops
    exact ⟨g1.trans hc, g2⟩
  · simp [key_pressed, hb]
  · simp [key_pressed, hb]

/-- The model used by the `cap_overshoot` instance: recording on, frame
index at the cap. -/
def modelC10 : Model :=
  { cur_frame := 9999, recording := true, motion := 1, disp_adj := 1,
    rot_adj := 1, gravel := [] }

/-- The draw oracle used by the `cap_overshoot` instance. -/
def drawsC10 : ℕ → Draws := fun _ =>
  { r := 0, dx := 0, dy := 0, drot := 0, newCycles := 50 }

/-- Concrete instance of `cap_overshoot`: the model `modelC10` at the even
tick 0 with the capture window available. -/
theorem cap_overshoot_witness :
    (modelC10.recording = true ∧ modelC10.cur_frame = 9999 ∧ (0 : ℕ) % 2 = 0) ∧
    ((update 0 drawsC10 true modelC10).1.cur_frame = 10000 ∧
     (update 0 drawsC10 true modelC10).1.recording = false ∧
     (update 0 drawsC10 true modelC10).2 = none ∧
     (∀ ops : List Op, (∀ op ∈ ops, ∀ k, op = Op.key k → k ≠ Key.R) →
       (applyOps ops (update 0 drawsC10 true modelC10).1).cur_frame = 10000 ∧
       (applyOps ops (update 0 drawsC10 true modelC10).1).recording = false) ∧
     (key_pressed Key.R (update 0 drawsC10 true modelC10).1).cur_frame = 0 ∧
     (key_pressed Key.R (update 0 drawsC10 true modelC10).1).recording = true) :=
  ⟨⟨rfl, rfl, rfl⟩, cap_overshoot 0 drawsC10 true modelC10 rfl rfl rfl⟩

/-- A stone that resamples an active segment at tick `a` (counter exhausted,
draw not above the motion probability) reaches the freshly sampled target
exactly when that segment's cycle count runs out: at tick
`a + 1 + new_cycles` the offsets and rotation equal the target and the
counter is back at 0. -/
theorem resample_then_coast (env : ℕ → TickEnv) (a : ℕ) (s : Stone)
    (h0 : (advanceSeq env a s).cycles = 0)
    (hact : ¬ ((env a).d.r > (env a).motion))
    (hk : 1 ≤ (env a).d.newCycles) :
    (advanceSeq env (a + 1 + (env a).d.newCycles) s).x_offset =
      (advanceSeq env a s).y / (ROWS : ℚ) * (env a).disp_adj * (env a).d.dx ∧
    (advanceSeq env (a + 1 + (env a).d.newCycles) s).y_offset =
      (advanceSeq env a s).y / (ROWS : ℚ) * (env a).disp_adj * (env a).d.dy ∧
    (advanceSeq env (a + 1 + (env a).d.newCycles) s).rotation =
      (advanceSeq env a s).y / (ROWS : ℚ) * (env a).rot_adj * (env a).d.drot ∧
    (advanceSeq env (a + 1 + (env a).d.newCycles) s).cycles = 0 := by
  have hkQ : ((env a).d.newCycles : ℚ) ≠ 0 := Nat.cast_ne_zero.mpr (by omega)
  rw [advanceSeq_add env (a + 1) ((env a).d.newCycles) s]
  have h1 : advanceSeq env (a + 1) s =
      advanceStone (env a).motion (env a).disp_adj (env a).rot_adj (env a).d
        (advanceSeq env a s) := rfl
  have h2 : advanceStone (env a).motion (env a).disp_adj (env a).rot_adj (env a).d
      (advanceSeq env a s) =
      { advanceSeq env a s with
        x_velocity := ((advanceSeq env a s).y / (ROWS : ℚ) * (env a).disp_adj *
            (env a).d.dx - (advanceSeq env a s).x_offset) / ((env a).d.newCycles : ℚ)
        y_velocity := ((advanceSeq env a s).y / (ROWS : ℚ) * (env a).disp_adj *
            (env a).d.dy - (advanceSeq env a s).y_offset) / ((env a).d.newCycles : ℚ)
        rot_velocity := ((advanceSeq env a s).y / (ROWS : ℚ) * (env a).rot_adj *
            (env a).d.drot - (advanceSeq env a s).rotation) / ((env a).d.newCycles : ℚ)
        cycles := (env a).d.newCycles } := by
    simp only [advanceStone, h0, if_pos, if_neg hact, if_true, eq_self_iff_true]
  rw [h1, h2, advanceSeq_coast _ ((env a).d.newCycles) _ le_rfl]
  refine ⟨?_, ?_, ?_, by simp⟩ <;>
    · show _ + ((env a).d.newCycles : ℚ) * ((_ - _) / ((env a).d.newCycles : ℚ)) = _
      rw [mul_div_cancel₀ _ hkQ]
      ring

/-- C1. Exact arrival: when a stone's segment is resampled (counter at 0,
active branch) with cycle count `k` drawn from `[50, 300)` and targets
`(tx, ty, tr)`, applying the per-tick advance for the next `k` ticks — no
intervening resample can occur, since the counter only resets at 0 —
leaves `offset_x = tx`, `offset_y = ty` and `rotation = tr` exactly, under
exact (rational) arithmetic, because the velocities are set to
`(target - current) / k` at resample time. -/
theorem exact_arrival (env : ℕ → TickEnv) (s : Stone)
    (h0 : s.cycles = 0) (hact : ¬ ((env 0).d.r > (env 0).motion))
    (h50 : 50 ≤ (env 0).d.newCycles) (h300 : (env 0).d.newCycles < 300) :
    (advanceSeq env (1 + (env 0).d.newCycles) s).x_offset =
      s.y / (ROWS : ℚ) * (env 0).disp_adj * (env 0).d.dx ∧
    (advanceSeq env (1 + (env 0).d.newCycles) s).y_offset =
      s.y / (ROWS : ℚ) * (env 0).disp_adj * (env 0).d.dy ∧
    (advanceSeq env (1 + (env 0).d.newCycles) s).rotation =
      s.y / (ROWS : ℚ) * (env 0).rot_adj * (env 0).d.drot ∧
    (advanceSeq env (1 + (env 0).d.newCycles) s).cycles = 0 := by
  have h := resample_then_coast env 0 s h0 hact (by omega)
  exact h

/-- The constant environment used by the `exact_arrival` instance. -/
def envC1 : ℕ → TickEnv := fun _ =>
  { motion := 1, disp_adj := 1, rot_adj := 1,
    d := { r := 0, dx := 1 / 2, dy := -1 / 2, drot := 1 / 5, newCycles := 50 } }

/-- The stone used by the `exact_arrival` instance: counter at 0, a
nonzero current offset so the velocities are nonzero. -/
def stoneC1 : Stone :=
  { x := 3, y := 11, x_offset := 1 / 4, y_offset := 0, rotation := 0,
    x_velocity := 0, y_velocity := 0, rot_velocity := 0, cycles := 0 }

/-- Concrete instance of `exact_arrival`: the environment `envC1`
(cycle count 50) and the stone `stoneC1`. -/
theorem exact_arrival_witness :
    (stoneC1.cycles = 0 ∧ 50 ≤ (envC1 0).d.newCycles ∧ (envC1 0).d.newCycles < 300) ∧
    ((advanceSeq envC1 (1 + (envC1 0).d.newCycles) stoneC1).x_offset =
      stoneC1.y / (ROWS : ℚ) * (envC1 0).disp_adj * (envC1 0).d.dx ∧
     (advanceSeq envC1 (1 + (envC1 0).d.newCycles) stoneC1).y_offset =
      stoneC1.y / (ROWS : ℚ) * (envC1 0).disp_adj * (envC1 0).d.dy ∧
     (advanceSeq envC1 (1 + (envC1 0).d.newCycles) stoneC1).rotation =
      stoneC1.y / (ROWS : ℚ) * (envC1 0).rot_adj * (envC1 0).d.drot ∧
     (advanceSeq envC1 (1 + (envC1 0).d.newCycles) stoneC1).cycles = 0) :=
  ⟨⟨rfl, by norm_num [envC1], by norm_num [envC1]⟩,
    exact_arrival envC1 stoneC1 rfl (by norm_num [envC1])
      (by norm_num [envC1]) (by norm_num [envC1])⟩

/-- With both adjustments 0, one advance keeps a stone at rest: offsets and
rotation stay 0, and either the counter just reset or the velocities are 0. -/
theorem advanceStone_settled (motion : ℚ) (d : Draws) (s : Stone)
    (h1 : s.x_offset = 0) (h2 : s.y_offset = 0) (h3 : s.rotation = 0)
    (h4 : s.cycles = 0 ∨
      (s.x_velocity = 0 ∧ s.y_velocity = 0 ∧ s.rot_velocity = 0)) :
    (advanceStone motion 0 0 d s).x_offset = 0 ∧
    (advanceStone motion 0 0 d s).y_offset = 0 ∧
    (advanceStone motion 0 0 d s).rotation = 0 ∧
    ((advanceStone motion 0 0 d s).cycles = 0 ∨
      ((advanceStone motion 0 0 d s).x_velocity = 0 ∧
       (advanceStone motion 0 0 d s).y_velocity = 0 ∧
       (advanceStone motion 0 0 d s).rot_velocity = 0)) := by
  by_cases h0 : s.cycles = 0
  · by_cases hr : d.r > motion
    · simp [advanceStone, h0, hr, h1, h2, h3]
    · simp [advanceStone, h0, hr, h1, h2, h3]
  · obtain ⟨hv1, hv2, hv3⟩ := h4.resolve_left h0
    simp [advanceStone, h0, h1, h2, h3, hv1, hv2, hv3]

/-- With both adjustments 0 on every tick, a stone at rest stays at rest
through any number of ticks. -/
theorem advanceSeq_stays_settled (env : ℕ → TickEnv)
    (henv : ∀ i, (env i).disp_adj = 0 ∧ (env i).rot_adj = 0)
    (s : Stone)
    (h1 : s.x_offset = 0) (h2 : s.y_offset = 0) (h3 : s.rotation = 0)
    (h4 : s.cycles = 0 ∨
      (s.x_velocity = 0 ∧ s.y_velocity = 0 ∧ s.rot_velocity = 0))
    (j : ℕ) :
    (advanceSeq env j s).x_offset = 0 ∧
    (advanceSeq env j s).y_offset = 0 ∧
    (advanceSeq env j s).rotation = 0 ∧
    ((advanceSeq env j s).cycles = 0 ∨
      ((advanceSeq env j s).x_velocity = 0 ∧
       (advanceSeq env j s).y_velocity = 0 ∧
       (advanceSeq env j s).rot_velocity = 0)) := by
  induction j with
  | zero => exact ⟨h1, h2, h3, h4⟩
  | succ n ih =>
      obtain ⟨i1, i2, i3, i4⟩ := ih
      obtain ⟨hd, hr⟩ := henv n
      rw [advanceSeq, hd, hr]
      exact advanceStone_settled (env n).motion (env n).d _ i1 i2 i3 i4

/-- With both adjustments 0, an above-probability draw never taken and
cycle counts at least 1 on every tick, every stone's offsets and rotation
are exactly 0 once its current segment has run out and one freshly sampled
segment has completed. -/
theorem advanceSeq_settles (env : ℕ → TickEnv)
    (henv : ∀ i, (env i).disp_adj = 0 ∧ (env i).rot_adj = 0 ∧
      (env i).d.r ≤ (env i).motion ∧ 1 ≤ (env i).d.newCycles)
    (s : Stone) (n : ℕ)
    (hn : s.cycles + 1 + (env s.cycles).d.newCycles ≤ n) :
    (advanceSeq env n s).x_offset = 0 ∧
    (advanceSeq env n s).y_offset = 0 ∧
    (advanceSeq env n s).rotation = 0 := by
  obtain ⟨hd, hr, hrm, hk1⟩ := henv s.cycles
  have h0 : (advanceSeq env s.cycles s).cycles = 0 := by
    rw [advanceSeq_coast env s.cycles s le_rfl]
    simp
  have hact : ¬ ((env s.cycles).d.r > (env s.cycles).motion) := not_lt.mpr hrm
  obtain ⟨p1, p2, p3, p4⟩ := resample_then_coast env s.cycles s h0 hact hk1
  have q1 : (advanceSeq env (s.cycles + 1 + (env s.cycles).d.newCycles) s).x_offset
      = 0 := by rw [p1, hd]; ring
  have q2 : (advanceSeq env (s.cycles + 1 + (env s.cycles).d.newCycles) s).y_offset
      = 0 := by rw [p2, hd]; ring
  have q3 : (advanceSeq env (s.cycles + 1 + (env s.cycles).d.newCycles) s).rotation
      = 0 := by rw [p3, hr]; ring
  have hsplit : (s.cycles + 1 + (env s.cycles).d.newCycles)
      + (n - (s.cycles + 1 + (env s.cycles).d.newCycles)) = n := by omega
  rw [← hsplit, advanceSeq_add env _ _ s]
  obtain ⟨g1, g2, g3, -⟩ := advanceSeq_stays_settled
    (fun i => env ((s.cycles + 1 + (env s.cycles).d.newCycles) + i))
    (fun i => ⟨(henv _).1, (henv _).2.1⟩)
    (advanceSeq env (s.cycles + 1 + (env s.cycles).d.newCycles) s)
    q1 q2 q3 (Or.inl p4)
    (n - (s.cycles + 1 + (env s.cycles).d.newCycles))
  exact ⟨g1, g2, g3⟩

/-- C3. Settle: on every tick at or after the midpoint
(`FRAMES / 2 ≤ elapsed`), the update zeroes both adjustments before the
stone loop — regardless of key-command changes made between ticks — so
every stone advances under zero adjustments; under zero adjustments every
newly-sampled active-segment target is exactly `(0, 0, 0)` (the velocities
become `(0 - current) / k`); and once a stone has finished its current
segment plus one freshly sampled one, its offsets and rotation are exactly
0 and stay 0. -/
theorem settle_after_midpoint (e : ℕ) (d : ℕ → Draws) (w : Bool) (m : Model)
    (he : FRAMES / 2 ≤ e)
    (env : ℕ → TickEnv)
    (henv : ∀ i, (env i).disp_adj = 0 ∧ (env i).rot_adj = 0 ∧
      (env i).d.r ≤ (env i).motion ∧ 1 ≤ (env i).d.newCycles)
    (s : Stone) (n : ℕ)
    (hn : s.cycles + 1 + (env s.cycles).d.newCycles ≤ n) :
    ((update e d w m).1.disp_adj = 0 ∧ (update e d w m).1.rot_adj = 0 ∧
     (update e d w m).1.gravel =
       m.gravel.mapIdx fun i t => advanceStone m.motion 0 0 (d i) t) ∧
    (s.cycles = 0 →
      (advanceSeq env 1 s).x_velocity =
        ((0 : ℚ) - s.x_offset) / ((env 0).d.newCycles : ℚ) ∧
      (advanceSeq env 1 s).y_velocity =
        ((0 : ℚ) - s.y_offset) / ((env 0).d.newCycles : ℚ) ∧
      (advanceSeq env 1 s).rot_velocity =
        ((0 : ℚ) - s.rotation) / ((env 0).d.newCycles : ℚ) ∧
      (advanceSeq env 1 s).cycles = (env 0).d.newCycles) ∧
    ((advanceSeq env n s).x_offset = 0 ∧
     (advanceSeq env n s).y_offset = 0 ∧
     (advanceSeq env n s).rotation = 0) := by
  obtain ⟨h1, h2, -, -, h5, -⟩ := update_proj e d w m
  refine ⟨⟨by rw [h1, if_pos he], by rw [h2, if_pos he], by rw [h5, if_pos he]⟩,
    ?_, advanceSeq_settles env henv s n hn⟩
  intro h0
  obtain ⟨hd0, hr0, hrm0, -⟩ := henv 0
  have hact0 : ¬ ((env 0).d.r > (env 0).motion) := not_lt.mpr hrm0
  have hone : advanceSeq env 1 s =
      advanceStone (env 0).motion (env 0).disp_adj (env 0).rot_adj (env 0).d s := rfl
  rw [hone, hd0, hr0]
  simp [advanceStone, h0, hact0]

/-- The constant post-midpoint environment used by the
`settle_after_midpoint` instance: both adjustments 0. -/
def envC3 : ℕ → TickEnv := fun _ =>
  { motion := 1, disp_adj := 0, rot_adj := 0,
    d := { r := 1 / 2, dx := 1 / 3, dy := 1 / 3, drot := 1 / 3, newCycles := 50 } }

/-- The stone used by the `settle_after_midpoint` instance: mid-segment,
away from rest. -/
def stoneC3 : Stone :=
  { x := 2, y := 5, x_offset := 3 / 4, y_offset := -1 / 2, rotation := 1 / 8,
    x_velocity := 1 / 100, y_velocity := 0, rot_velocity := 0, cycles := 2 }

/-- The model used by the `settle_after_midpoint` instance. -/
def modelC3 : Model :=
  { cur_frame := 0, recording := true, motion := 1, disp_adj := 1,
    rot_adj := 1, gravel := [Stone.new 0 0] }

/-- Concrete instance of `settle_after_midpoint`: the midpoint tick 900,
the environment `envC3`, the stone `stoneC3` and 53 ticks. -/
theorem settle_after_midpoint_witness :
    (FRAMES / 2 ≤ 900 ∧
     stoneC3.cycles + 1 + (envC3 stoneC3.cycles).d.newCycles ≤ 53) ∧
    (((update 900 drawsC10 true modelC3).1.disp_adj = 0 ∧
      (update 900 drawsC10 true modelC3).1.rot_adj = 0 ∧
      (update 900 drawsC10 true modelC3).1.gravel =
        modelC3.gravel.mapIdx fun i t =>
          advanceStone modelC3.motion 0 0 (drawsC10 i) t) ∧
     (stoneC3.cycles = 0 →
       (advanceSeq envC3 1 stoneC3).x_velocity =
         ((0 : ℚ) - stoneC3.x_offset) / ((envC3 0).d.newCycles : ℚ) ∧
       (advanceSeq envC3 1 stoneC3).y_velocity =
         ((0 : ℚ) - stoneC3.y_offset) / ((envC3 0).d.newCycles : ℚ) ∧
       (advanceSeq envC3 1 stoneC3).rot_velocity =
         ((0 : ℚ) - stoneC3.rotation) / ((envC3 0).d.newCycles : ℚ) ∧
       (advanceSeq envC3 1 stoneC3).cycles = (envC3 0).d.newCycles) ∧
     ((advanceSeq envC3 53 stoneC3).x_offset = 0 ∧
      (advanceSeq envC3 53 stoneC3).y_offset = 0 ∧
      (advanceSeq envC3 53 stoneC3).rotation = 0)) :=
  ⟨⟨by decide, by norm_num [envC3, stoneC3]⟩,
    settle_after_midpoint 900 drawsC10 true modelC3 (by decide) envC3
      (fun i => ⟨rfl, rfl, by norm_num [envC3], by norm_num [envC3]⟩)
      stoneC3 53 (by norm_num [envC3, stoneC3])⟩

/-- One recorder step advances the closed-form recorder state: after the
ticks `0, .., n - 1` the index is `min 10000 (ceil(n/2))` and recording
survives while that count stays within the cap. -/
theorem recStep_closed (n : ℕ) :
    recStep n (min 10000 ((n + 1) / 2), decide ((n + 1) / 2 ≤ 9999)) =
      (min 10000 ((n + 2) / 2), decide ((n + 2) / 2 ≤ 9999)) := by
  by_cases heven : n % 2 = 0
  · by_cases hcap : (n + 1) / 2 ≤ 9999
    · rw [recStep, if_pos ⟨by simp [hcap], heven⟩]
      rw [Prod.mk.injEq]
      exact ⟨by omega, decide_eq_decide.mpr (by omega)⟩
    · rw [recStep, if_neg (by simp [hcap])]
      rw [Prod.mk.injEq]
      exact ⟨by omega, decide_eq_decide.mpr (by omega)⟩
  · rw [recStep, if_neg (by simp [heven])]
    rw [Prod.mk.injEq]
    exact ⟨by omega, decide_eq_decide.mpr (by omega)⟩

/-- Closed form of the recorder state over a key-free run from startup:
after `T` ticks the index is `min 10000 (ceil(T/2))` and recording is on
exactly while `ceil(T/2) ≤ 9999`. -/
theorem runFrom_rec_proj (d : ℕ → ℕ → Draws) (w : Bool) (T : ℕ) :
    (runFrom d w 0 T initModel).cur_frame = min 10000 ((T + 1) / 2) ∧
    (runFrom d w 0 T initModel).recording = decide ((T + 1) / 2 ≤ 9999) := by
  induction T with
  | zero => exact ⟨rfl, rfl⟩
  | succ n ih =>
      rw [runFrom, Nat.zero_add]
      obtain ⟨-, -, -, h4, -, -⟩ := update_proj n (d n) w
        (runFrom d w 0 n initModel)
      rw [ih.1, ih.2] at h4
      rw [recStep_closed n] at h4
      exact ⟨congrArg Prod.fst h4, congrArg Prod.snd h4⟩

/-- C2 (amended). Frame count: for a run of `T` ticks, numbered
`0, .., T - 1` by `elapsed_frames`, started with recording on and the
capture window available and with no key presses, the final frame index is
`min(10000, ceil(T/2))` — captures are attempted only on even ticks, of
which `T` ticks contain `ceil(T/2)` (the first capture tick is tick 0),
and on overshoot the index is left at 10000, not 9999 — and recording is
still on afterwards exactly when `ceil(T/2) ≤ 9999`, i.e. it switches off
on the tick whose increment would pass 9999; a capture is requested on
exactly those ticks where recording is on, the tick number is even, the
incremented index is within the cap and the window is available. -/
theorem frame_count (d : ℕ → ℕ → Draws) (T : ℕ) :
    (runFrom d true 0 T initModel).cur_frame = min 10000 ((T + 1) / 2) ∧
    (runFrom d true 0 T initModel).recording = decide ((T + 1) / 2 ≤ 9999) ∧
    (∀ e dd w mm, (update e dd w mm).2 =
      if (mm.recording && decide (e % 2 = 0) &&
          decide (mm.cur_frame + 1 ≤ 9999) && w) = true
        then some (mm.cur_frame + 1) else none) := by
  obtain ⟨h1, h2⟩ := runFrom_rec_proj d true T
  exact ⟨h1, h2, fun e dd w mm => (update_proj e dd w mm).2.2.2.2.2⟩

/-- C2 counterexample: a one-tick run (tick 0 only) with recording on
already captures one frame, so the frame index ends at 1, while the
claimed formula `min(9999, floor(T/2))` gives 0. -/
theorem frame_count_cex :
    (runFrom (fun _ => drawsC10) true 0 1 initModel).cur_frame = 1 ∧
    min 9999 (1 / 2) = 0 ∧ (1 : ℕ) ≠ 0 := by
  refine ⟨?_, by decide, by decide⟩
  show (update (0 + 0) drawsC10 true initModel).1.cur_frame = 1
  have h4 := (update_proj (0 + 0) drawsC10 true initModel).2.2.2.1
  have h5 : recStep (0 + 0) (initModel.cur_frame, initModel.recording) =
      (1, true) := by decide
  rw [h5] at h4
  exact congrArg Prod.fst h4
